import Mathlib

/-!
Verification of the audio chunking and segment/speaker merge logic of
`src/app.py` (audio2text-app).  The Python functions are shallowly embedded:
times are modelled as rationals, Python dictionaries as structures, Python
exceptions as `Except`, and Python string operations (`strip`, `replace`,
f-strings, `join`) as executable Lean functions on `String`/`List Char`.
-/

namespace AudioApp

/-- Python `str.strip()` whitespace set (ASCII approximation used by the
transcript texts handled here: space, tab, newline, carriage return,
vertical tab, form feed). -/
def pySpace (c : Char) : Bool :=
  c = ' ' || c = '\t' || c = '\n' || c = '\r' || c = '\x0b' || c = '\x0c'

/-- Python `str.strip()` on the underlying character list: drop whitespace
from both ends. -/
def pyStripList (l : List Char) : List Char :=
  ((l.dropWhile pySpace).reverse.dropWhile pySpace).reverse

/-- Python `str.strip()`. -/
def pyStrip (s : String) : String :=
  String.mk (pyStripList s.data)

/-- A transcription segment, as produced by Whisper and consumed by
`assign_speakers_to_transcription` in `src/app.py`: a dict with keys
`start`, `end`, `text` and (after assignment) `speaker`.  The Python key
`end` is a Lean keyword, so the field is called `stop`. -/
structure TSeg where
  start : ℚ
  stop : ℚ
  text : String
  speaker : Option String
deriving DecidableEq

/-- A diarization interval, one row of `diarization_results` in
`src/app.py`: a dict with keys `Start (sec)`, `End (sec)` and `Speaker`
(the two times are stored as formatted strings and parsed back with
`float`; they are modelled here directly as rationals). -/
structure DiarInterval where
  start : ℚ
  stop : ℚ
  speaker : String
deriving DecidableEq

/-- Temporal midpoint of a transcription segment,
`(seg["start"] + seg["end"]) / 2` (src/app.py line 150). -/
def midpoint (seg : TSeg) : ℚ :=
  (seg.start + seg.stop) / 2

/-- The inner loop of the assignment phase of
`assign_speakers_to_transcription` (src/app.py lines 151-157): scan the
diarization results in order, and on the first interval whose closed range
contains the midpoint, record its speaker and `break`.  `none` models the
Python initial value `assigned_speaker = None`. -/
def find_speaker : List DiarInterval → ℚ → Option String
  | [], _ => none
  | d :: rest, mid =>
      if d.start ≤ mid ∧ mid ≤ d.stop then some d.speaker
      else find_speaker rest mid

/-- Python truthiness applied to `assigned_speaker` (src/app.py line 158):
`assigned_speaker if assigned_speaker else "Unknown"`.  Both `None` and
the empty string are falsy, hence become `"Unknown"`. -/
def truthy_label : Option String → String
  | some s => if s = "" then "Unknown" else s
  | none => "Unknown"

/-- The assignment phase of `assign_speakers_to_transcription`
(src/app.py lines 149-158): set each segment's `speaker` key from the
first containing interval, through Python truthiness. -/
def assign_speakers (segs : List TSeg) (ds : List DiarInterval) : List TSeg :=
  segs.map (fun seg =>
    { seg with speaker := some (truthy_label (find_speaker ds (midpoint seg))) })

/-- Speaker read back during the merge phase:
`seg.get("speaker", "Unknown")` (src/app.py line 164). -/
def segSpeaker (seg : TSeg) : String :=
  seg.speaker.getD "Unknown"

/-- Text read back during the merge phase:
`seg.get("text", "").strip()` (src/app.py line 165). -/
def segText (seg : TSeg) : String :=
  pyStrip seg.text

/-- Rendering of the Python value `current_speaker` (either `None` or a
string) inside the f-string of src/app.py lines 168 and 174. -/
def optLabel (o : Option String) : String :=
  o.getD "None"

/-- The merge loop of `assign_speakers_to_transcription` (src/app.py
lines 160-174), with `current_speaker` and `current_text` as explicit
accumulators.  The trailing `if current_text:` append is the `[]` case. -/
def mergeLoop : Option String → String → List TSeg → List String
  | cur, curText, [] =>
      if curText = "" then [] else [optLabel cur ++ ": " ++ pyStrip curText]
  | cur, curText, seg :: rest =>
      if cur = some (segSpeaker seg) then
        mergeLoop cur (curText ++ segText seg ++ " ") rest
      else
        match cur with
        | none => mergeLoop (some (segSpeaker seg)) (segText seg ++ " ") rest
        | some cs =>
            (cs ++ ": " ++ pyStrip curText) ::
              mergeLoop (some (segSpeaker seg)) (segText seg ++ " ") rest

/-- The function `assign_speakers_to_transcription` (src/app.py lines
146-175): return `""` on an empty segment list, otherwise assign speakers
in place and join the merged paragraph lines with a blank line. -/
def assign_speakers_to_transcription (segs : List TSeg) (ds : List DiarInterval) : String :=
  if segs.isEmpty then ""
  else String.intercalate "\n\n" (mergeLoop none "" (assign_speakers segs ds))

/-- Modelled from the spec: the first diarization interval, in the order
provided, whose closed range `[start, end]` contains the segment midpoint
(spec §4.2 speaker assignment rule). -/
def spec_first_match (ds : List DiarInterval) (seg : TSeg) : Option DiarInterval :=
  ds.find? (fun d => decide (d.start ≤ midpoint seg ∧ midpoint seg ≤ d.stop))

/-- Modelled from the spec, amended to the code's truthiness test: the
speaker of the first containing interval, except that an empty-string
label (falsy in Python) is replaced by `"Unknown"`, and `"Unknown"` when
no interval contains the midpoint. -/
def amended_speaker (ds : List DiarInterval) (seg : TSeg) : String :=
  match spec_first_match ds seg with
  | some d => if d.speaker = "" then "Unknown" else d.speaker
  | none => "Unknown"

/-- The (speaker, trimmed text) view of an assigned segment used by the
spec-level description of the merge. -/
def pairOf (seg : TSeg) : String × String :=
  (segSpeaker seg, segText seg)

/-- Modelled from the spec: maximal runs of consecutive equal-speaker
segments (spec §4.2 coalescing rule). -/
def groupRuns : List (String × String) → List (String × List String)
  | [] => []
  | (s, t) :: rest =>
      match groupRuns rest with
      | [] => [(s, [t])]
      | (s2, ts) :: more =>
          if s = s2 then (s, t :: ts) :: more
          else (s, [t]) :: (s2, ts) :: more

/-- Accumulated run text as the code builds it: each trimmed text followed
by one space, concatenated. -/
def textAcc : List String → String
  | [] => ""
  | t :: ts => (t ++ " ") ++ textAcc ts

/-- One paragraph line, amended form: `"<speaker>: "` followed by the
trimmed concatenation of the run's space-terminated texts. -/
def runLine : String × List String → String
  | (s, ts) => s ++ ": " ++ pyStrip (textAcc ts)

/-- One paragraph line as literally described by the spec: `"<speaker>: "`
followed by the run's trimmed texts joined by single spaces. -/
def runLineLiteral : String × List String → String
  | (s, ts) => s ++ ": " ++ String.intercalate " " ts

/-- Modelled from the spec (amended join): group into maximal same-speaker
runs, format each run, join paragraphs with a blank line. -/
def merged_spec (ps : List (String × String)) : String :=
  String.intercalate "\n\n" ((groupRuns ps).map runLine)

/-- Modelled from the spec (literal join by single spaces). -/
def merged_spec_literal (ps : List (String × String)) : String :=
  String.intercalate "\n\n" ((groupRuns ps).map runLineLiteral)

/-- The lines produced by the merge loop when it is entered with current
speaker `cs` and a nonempty accumulated text `ct`, expressed over the run
decomposition `rs` of the remaining segments: the accumulated text merges
into the first run exactly when the speakers agree. -/
def runsAfter (cs ct : String) (rs : List (String × List String)) : List String :=
  match rs with
  | [] => [cs ++ ": " ++ pyStrip ct]
  | (s, ts) :: more =>
      if cs = s then (cs ++ ": " ++ pyStrip (ct ++ textAcc ts)) :: more.map runLine
      else (cs ++ ": " ++ pyStrip ct) :: ((s, ts) :: more).map runLine

/-- A planned audio chunk.  `original = true` marks the whole-file chunk
`(file_path, 0.0)` returned on the small-file path of `segment_audio`;
the split path materializes fresh temporary files (`original = false`).
`start` and `duration` are the `-ss`/`-t` arguments handed to ffmpeg. -/
structure AudioChunk where
  original : Bool
  start : ℚ
  duration : ℚ
deriving DecidableEq

/-- The count `num_segments = int(np.ceil(total_duration / max_duration))`
(src/app.py line 90). -/
def num_segments (total maxDuration : ℚ) : ℤ :=
  Int.ceil (total / maxDuration)

/-- The even length `segment_duration = total_duration / num_segments`
(src/app.py line 91; the divisor is the Python int). -/
def segment_duration (total maxDuration : ℚ) : ℚ :=
  total / ((num_segments total maxDuration : ℤ) : ℚ)

/-- The chunk built at loop index `i` of `segment_audio` (src/app.py
lines 94-105): `chunk_start = i * segment_duration`,
`current_duration = min(segment_duration, total_duration - chunk_start)`. -/
def chunk_at (total maxDuration : ℚ) (i : ℕ) : AudioChunk :=
  ⟨false, (i : ℚ) * segment_duration total maxDuration,
    min (segment_duration total maxDuration)
      (total - (i : ℚ) * segment_duration total maxDuration)⟩

/-- The chunk plan computed by `segment_audio` (src/app.py lines 84-106).
When both bounds hold the original file is returned whole.  Otherwise the
code evaluates `total_duration / num_segments`, which raises
`ZeroDivisionError` in Python when `num_segments == 0`; that exception is
the `Except.error` case.  A negative `num_segments` makes `range` empty. -/
def segment_audio_plan (total : ℚ) (fileSize : ℕ) (maxDuration : ℚ) (maxFileSize : ℕ) :
    Except String (List AudioChunk) :=
  if total ≤ maxDuration ∧ fileSize ≤ maxFileSize then
    Except.ok [⟨true, 0, total⟩]
  else if num_segments total maxDuration = 0 then
    Except.error "ZeroDivisionError"
  else
    Except.ok ((List.range (num_segments total maxDuration).toNat).map (chunk_at total maxDuration))

/-- Python `str.replace(pat, rep)` on character lists, for the scan that
replaces every non-overlapping occurrence left to right.  The fuel is the
length of the scanned list; each step consumes at least one character, so
`replaceAllAux pat rep l.length l` is the replacement of `l`. -/
def replaceAllAux (pat rep : List Char) : ℕ → List Char → List Char
  | _, [] => []
  | 0, s => s
  | fuel + 1, c :: rest =>
      if pat.isPrefixOf (c :: rest) ∧ pat ≠ [] then
        rep ++ replaceAllAux pat rep fuel (List.drop (pat.length - 1) rest)
      else
        c :: replaceAllAux pat rep fuel rest

/-- Python `text.replace(pat, rep)` (for the nonempty patterns
`lbl + ":"` used in src/app.py line 354). -/
def pyReplace (pat rep s : String) : String :=
  String.mk (replaceAllAux pat.data rep.data s.data.length s.data)

/-- Whether `pat` occurs as a contiguous sublist of `s` ("the old label
still matches" in the spec's idempotence clause). -/
def occursIn (pat : List Char) : List Char → Bool
  | [] => pat.isEmpty
  | c :: rest => pat.isPrefixOf (c :: rest) || occursIn pat rest

/-- The single-label rename step of src/app.py line 354:
`updated_text.replace(lbl + ":", new_name + ":")`. -/
def renameLabel (lbl newName text : String) : String :=
  pyReplace (lbl ++ ":") (newName ++ ":") text

/-- The full rename transform of src/app.py lines 351-355: one
`str.replace` per label, applied sequentially over the whole text in the
order of `labels` (the code iterates `speaker_labels`, a sorted list). -/
def apply_rename (labels : List String) (speakerMap : String → String) (text : String) : String :=
  labels.foldl (fun t lbl => renameLabel lbl (speakerMap lbl) t) text

/-- Modelled from the spec: a simultaneous substitution of all labels in
one left-to-right scan — at each position, if some label `lbl` of
`labels` is followed by `":"`, emit `speakerMap lbl ++ ":"` and skip it;
already-substituted text is never rescanned.  Used to contrast with the
sequential `apply_rename`. -/
def simRenameAux (labels : List String) (speakerMap : String → String) :
    ℕ → List Char → List Char
  | _, [] => []
  | 0, s => s
  | fuel + 1, c :: rest =>
      match labels.find? (fun lbl => (lbl ++ ":").data.isPrefixOf (c :: rest)) with
      | some lbl =>
          (speakerMap lbl ++ ":").data ++
            simRenameAux labels speakerMap fuel (List.drop ((lbl ++ ":").data.length - 1) rest)
      | none => c :: simRenameAux labels speakerMap fuel rest

/-- Modelled from the spec: simultaneous label substitution over a text. -/
def simRename (labels : List String) (speakerMap : String → String) (text : String) : String :=
  String.mk (simRenameAux labels speakerMap text.data.length text.data)

/-- The per-run session state of `main` relevant to the transcription /
diarization flow (src/app.py lines 231-237 and 254-332). -/
structure SessionState where
  transcription_text : String
  transcription_segments : List TSeg
  diarization_results : List DiarInterval
  final_transcript : String
  transcription_done : Bool
deriving DecidableEq

/-- The transcribe-button flow of `main` (src/app.py lines 274-332),
abstracted over the outcomes of the two external model calls.  The call
to `transcribe_audio` (line 274) is not wrapped in any `try`, so its
exception propagates and aborts the run (`Except.error`).  The
diarization block (lines 281-307) is wrapped in `try/except`, which
shows `st.error(f"Error during diarization: {e}")` and continues; the
warning list records that message.  The display phase (lines 313-332)
then recomputes `final_transcript`: merged when diarization results are
present and there are transcription segments, else the plain text. -/
def run_transcription_flow
    (transcription : Except String (String × List TSeg))
    (diarization : Except String (List DiarInterval))
    (enableDiarization : Bool) :
    Except String (SessionState × List String) :=
  match transcription with
  | Except.error e => Except.error e
  | Except.ok (txt, segs) =>
      let st0 : SessionState :=
        { transcription_text := txt, transcription_segments := segs,
          diarization_results := [], final_transcript := txt,
          transcription_done := true }
      let st1w : SessionState × List String :=
        if enableDiarization then
          match diarization with
          | Except.ok dr => ({ st0 with diarization_results := dr }, [])
          | Except.error e => (st0, ["Error during diarization: " ++ e])
        else (st0, [])
      let st1 := st1w.1
      let st2 : SessionState :=
        if st1.diarization_results.isEmpty then
          { st1 with final_transcript := st1.transcription_text }
        else if st1.transcription_segments.isEmpty then
          { st1 with final_transcript := st1.transcription_text }
        else
          { st1 with final_transcript :=
              assign_speakers_to_transcription st1.transcription_segments st1.diarization_results }
      Except.ok (st2, st1w.2)

/-- An audio chunk file as handed to the transcription loop: the
temporary path produced by `segment_audio` (or the original path for the
whole-file chunk) and its start offset. -/
structure ChunkFile where
  path : String
  start : ℚ
deriving DecidableEq

/-- The result dictionary returned by `model.transcribe`. -/
structure WhisperResult where
  text : String
  segments : List TSeg
deriving DecidableEq

/-- Boolean success test for an `Except` outcome. -/
def exceptOk {ε α : Type} : Except ε α → Bool
  | Except.ok _ => true
  | Except.error _ => false

instance {ε α : Type} [DecidableEq ε] [DecidableEq α] : DecidableEq (Except ε α) := fun x y =>
  match x, y with
  | Except.ok a, Except.ok b =>
      if h : a = b then Decidable.isTrue (by rw [h])
      else Decidable.isFalse (fun hc => h (by injection hc))
  | Except.ok _, Except.error _ => Decidable.isFalse (fun hc => Except.noConfusion hc)
  | Except.error _, Except.ok _ => Decidable.isFalse (fun hc => Except.noConfusion hc)
  | Except.error e, Except.error f =>
      if h : e = f then Decidable.isTrue (by rw [h])
      else Decidable.isFalse (fun hc => h (by injection hc))

/-- The multi-chunk loop of `transcribe_audio` (src/app.py lines
116-134), abstracted over the model call, with an explicit log of the
files passed to `os.remove`.  Each iteration transcribes the chunk,
accumulates text and offset-shifted segments, and then deletes the chunk
file unless it is the original (`if seg != file_path: os.remove(seg)`).
A model exception propagates immediately: the `os.remove` of the current
chunk and all later iterations are skipped (there is no `try/finally`),
so the removal log stops growing. -/
def transcribe_chunks (model : String → Except String WhisperResult) (filePath : String) :
    List ChunkFile → String → List TSeg → List String →
    Except String (String × List TSeg) × List String
  | [], fullText, accSegs, removed => (Except.ok (pyStrip fullText, accSegs), removed)
  | c :: rest, fullText, accSegs, removed =>
      match model c.path with
      | Except.error e => (Except.error e, removed)
      | Except.ok r =>
          transcribe_chunks model filePath rest
            (fullText ++ pyStrip r.text ++ " ")
            (accSegs ++ r.segments.map (fun s =>
              { s with start := s.start + c.start, stop := s.stop + c.start }))
            (if c.path = filePath then removed else removed ++ [c.path])

end AudioApp

namespace AudioApp

/-- A string ending in a space is nonempty. -/
theorem append_space_ne_empty (a : String) : a ++ " " ≠ "" := by
  intro h
  have hd := congrArg String.data h
  rw [String.data_append, show (" " : String).data = [' '] from rfl,
    show ("" : String).data = ([] : List Char) from rfl] at hd
  simp at hd

/-- The merge loop entered with a current speaker and a nonempty
accumulated text produces exactly the `runsAfter` lines of the run
decomposition of the remaining segments. -/
theorem mergeLoop_some (segs : List TSeg) : ∀ cs ct : String, ct ≠ "" →
    mergeLoop (some cs) ct segs = runsAfter cs ct (groupRuns (segs.map pairOf)) := by
  induction segs with
  | nil =>
      intro cs ct h
      simp [mergeLoop, groupRuns, runsAfter, h, optLabel]
  | cons seg rest ih =>
      intro cs ct h
      by_cases hs : cs = segSpeaker seg
      · rw [show mergeLoop (some cs) ct (seg :: rest)
              = mergeLoop (some cs) (ct ++ segText seg ++ " ") rest from by
            simp [mergeLoop, hs]]
        rw [ih cs (ct ++ segText seg ++ " ") (append_space_ne_empty _)]
        rcases hgr : groupRuns (List.map pairOf rest) with _ | ⟨⟨s2, ts⟩, more⟩
        · simp [List.map_cons, groupRuns, hgr, runsAfter, pairOf, hs, textAcc,
            String.append_empty, String.append_assoc]
        · by_cases hs2 : segSpeaker seg = s2
          · simp [List.map_cons, groupRuns, hgr, runsAfter, pairOf, hs, hs2, textAcc,
              String.append_assoc]
          · simp [List.map_cons, groupRuns, hgr, runsAfter, pairOf, hs, hs2, textAcc,
              String.append_empty, String.append_assoc, runLine]
      · rw [show mergeLoop (some cs) ct (seg :: rest)
              = (cs ++ ": " ++ pyStrip ct)
                  :: mergeLoop (some (segSpeaker seg)) (segText seg ++ " ") rest from by
            simp [mergeLoop, hs]]
        rw [ih (segSpeaker seg) (segText seg ++ " ") (append_space_ne_empty _)]
        rcases hgr : groupRuns (List.map pairOf rest) with _ | ⟨⟨s2, ts⟩, more⟩
        · simp [List.map_cons, groupRuns, hgr, runsAfter, pairOf, hs, textAcc,
            String.append_empty, runLine]
        · by_cases hs2 : segSpeaker seg = s2
          · have hcs2 : ¬cs = s2 := hs2 ▸ hs
            simp [List.map_cons, groupRuns, hgr, runsAfter, pairOf, hs, hs2, hcs2, textAcc,
              String.append_assoc, runLine]
          · simp [List.map_cons, groupRuns, hgr, runsAfter, pairOf, hs, hs2, textAcc,
              String.append_empty, runLine]

/-- The full merge loop started from `current_speaker = None`,
`current_text = ""` produces exactly one formatted line per maximal
same-speaker run. -/
theorem mergeLoop_none (segs : List TSeg) :
    mergeLoop none "" segs = (groupRuns (segs.map pairOf)).map runLine := by
  cases segs with
  | nil => simp [mergeLoop, groupRuns]
  | cons seg rest =>
      rw [show mergeLoop none "" (seg :: rest)
            = mergeLoop (some (segSpeaker seg)) (segText seg ++ " ") rest from by
          simp [mergeLoop]]
      rw [mergeLoop_some rest (segSpeaker seg) (segText seg ++ " ") (append_space_ne_empty _)]
      rcases hgr : groupRuns (List.map pairOf rest) with _ | ⟨⟨s2, ts⟩, more⟩
      · simp [List.map_cons, groupRuns, hgr, runsAfter, pairOf, textAcc,
          String.append_empty, runLine]
      · by_cases hs2 : segSpeaker seg = s2
        · simp [List.map_cons, groupRuns, hgr, runsAfter, pairOf, hs2, textAcc,
            String.append_assoc, runLine]
        · simp [List.map_cons, groupRuns, hgr, runsAfter, pairOf, hs2, textAcc,
            String.append_empty, runLine]

/-- The hand-rolled scan-with-break of src/app.py lines 151-157 is the
first-match search `List.find?` over the diarization list. -/
theorem find_speaker_eq_find? (ds : List DiarInterval) (mid : ℚ) :
    find_speaker ds mid
      = (ds.find? (fun d => decide (d.start ≤ mid ∧ mid ≤ d.stop))).map DiarInterval.speaker := by
  induction ds with
  | nil => rfl
  | cons d rest ih =>
      by_cases hd : d.start ≤ mid ∧ mid ≤ d.stop
      · simp [find_speaker, List.find?, hd]
      · simp [find_speaker, List.find?, hd, ih]

/-- The code's truthiness-filtered first match is the amended spec rule. -/
theorem truthy_find_eq_amended (ds : List DiarInterval) (seg : TSeg) :
    truthy_label (find_speaker ds (midpoint seg)) = amended_speaker ds seg := by
  unfold amended_speaker spec_first_match
  rw [find_speaker_eq_find?]
  cases ds.find? (fun d => decide (d.start ≤ midpoint seg ∧ midpoint seg ≤ d.stop)) with
  | none => rfl
  | some d => rfl

/-- Claim C1 (amended).  The assignment phase gives every segment the
speaker of the first diarization interval (in the order provided) whose
closed range `[start, end]` contains the segment's midpoint, except that
an empty-string speaker label — falsy in Python — is replaced by
`"Unknown"`; a segment whose midpoint lies in no interval gets
`"Unknown"`. -/
theorem c1_first_match_assignment (segs : List TSeg) (ds : List DiarInterval) :
    ((assign_speakers segs ds).map TSeg.speaker
        = segs.map (fun seg => some (amended_speaker ds seg)))
    ∧ (∀ seg : TSeg,
        (∀ d ∈ ds, ¬(d.start ≤ midpoint seg ∧ midpoint seg ≤ d.stop)) →
        amended_speaker ds seg = "Unknown") := by
  constructor
  · rw [assign_speakers, List.map_map]
    refine List.map_congr_left (fun seg _ => ?_)
    simp [Function.comp, truthy_find_eq_amended]
  · intro seg h
    have hnone : spec_first_match ds seg = none := by
      rw [spec_first_match, List.find?_eq_none]
      intro d hd
      simpa using h d hd
    simp [amended_speaker, hnone]

/-- Counterexample to claim C1 as stated: with the single interval
`(0, 2, "")` containing the midpoint `1` of segment `(0, 2, "hi")`, the
claim requires the empty-string speaker, but the code assigns
`"Unknown"` because the empty string is falsy in Python. -/
theorem c1_counterexample :
    assign_speakers [⟨0, 2, "hi", none⟩] [⟨0, 2, ""⟩]
        = [⟨0, 2, "hi", some "Unknown"⟩]
    ∧ spec_first_match [⟨0, 2, ""⟩] ⟨0, 2, "hi", none⟩ = some ⟨0, 2, ""⟩
    ∧ ("Unknown" : String) ≠ "" := by
  have hmid : midpoint ⟨0, 2, "hi", none⟩ = 1 := by rw [midpoint]; norm_num
  refine ⟨?_, ?_, by decide⟩
  · rw [assign_speakers]
    rw [List.map_cons, List.map_nil, hmid]
    rw [show find_speaker [⟨0, 2, ""⟩] 1 = some "" from by
      rw [find_speaker, if_pos]; constructor <;> decide]
    rfl
  · rw [spec_first_match, hmid]
    apply List.find?_cons_of_pos
    decide

/-- Witness for claim C1: a segment with midpoint `1` and a single
interval `[5, 6]` not containing it is assigned `"Unknown"`. -/
theorem c1_witness :
    (∀ d ∈ [(⟨5, 6, "A"⟩ : DiarInterval)],
        ¬(d.start ≤ midpoint ⟨0, 2, "hi", none⟩ ∧ midpoint ⟨0, 2, "hi", none⟩ ≤ d.stop))
    ∧ amended_speaker [⟨5, 6, "A"⟩] ⟨0, 2, "hi", none⟩ = "Unknown" := by
  have hmid : midpoint ⟨0, 2, "hi", none⟩ = 1 := by rw [midpoint]; norm_num
  have hh : ∀ d ∈ [(⟨5, 6, "A"⟩ : DiarInterval)],
      ¬(d.start ≤ midpoint ⟨0, 2, "hi", none⟩ ∧ midpoint ⟨0, 2, "hi", none⟩ ≤ d.stop) := by
    intro d hd
    rw [List.mem_singleton] at hd
    subst hd
    rw [hmid]
    decide
  exact ⟨hh, (c1_first_match_assignment [] [⟨5, 6, "A"⟩]).2 ⟨0, 2, "hi", none⟩ hh⟩

/-- Claim C2 (amended).  The merger coalesces maximal runs of consecutive
same-speaker segments into paragraphs; each paragraph is
`"<speaker>: <text>"` where the text is each segment's trimmed text
followed by one space, concatenated, then trimmed (this equals joining
the trimmed texts with single spaces whenever the run's first and last
trimmed texts are nonempty); paragraphs are joined by a blank line;
empty input produces the empty string; and the concrete example merges
to `"A: hi\n\nB: there"`. -/
theorem c2_coalescing (segs : List TSeg) (ds : List DiarInterval) :
    (assign_speakers_to_transcription segs ds
        = merged_spec ((assign_speakers segs ds).map pairOf))
    ∧ (∀ ds2 : List DiarInterval, assign_speakers_to_transcription [] ds2 = "")
    ∧ assign_speakers_to_transcription
        [⟨0, 2, "hi", none⟩, ⟨2, 4, "there", none⟩]
        [⟨0, 2, "A"⟩, ⟨2, 4, "B"⟩] = "A: hi\n\nB: there" := by
  refine ⟨?_, fun ds2 => rfl, ?_⟩
  · cases segs with
    | nil => rfl
    | cons seg rest =>
        rw [assign_speakers_to_transcription, merged_spec, if_neg (by simp)]
        rw [mergeLoop_none]
  · have h : assign_speakers [⟨0, 2, "hi", none⟩, ⟨2, 4, "there", none⟩]
        [⟨0, 2, "A"⟩, ⟨2, 4, "B"⟩]
        = [⟨0, 2, "hi", some "A"⟩, ⟨2, 4, "there", some "B"⟩] := by
      norm_num [assign_speakers, find_speaker, midpoint, truthy_label]
      decide
    simp only [assign_speakers_to_transcription, h]
    decide

/-- Counterexample to claim C2 as stated: in a run whose first segment's
text trims to empty, the code's paragraph text (`"there"`) differs from
the trimmed texts joined by single spaces (`" there"`), because the code
strips the accumulated text once more before emitting the line. -/
theorem c2_counterexample :
    assign_speakers_to_transcription
        [⟨0, 2, "  ", none⟩, ⟨2, 4, "there", none⟩] [⟨0, 4, "A"⟩] = "A: there"
    ∧ merged_spec_literal
        ((assign_speakers [⟨0, 2, "  ", none⟩, ⟨2, 4, "there", none⟩] [⟨0, 4, "A"⟩]).map pairOf)
        = "A:  there"
    ∧ ("A: there" : String) ≠ "A:  there" := by
  have h : assign_speakers [⟨0, 2, "  ", none⟩, ⟨2, 4, "there", none⟩] [⟨0, 4, "A"⟩]
      = [⟨0, 2, "  ", some "A"⟩, ⟨2, 4, "there", some "A"⟩] := by
    norm_num [assign_speakers, find_speaker, midpoint, truthy_label]
    decide
  refine ⟨?_, ?_, by decide⟩
  · simp only [assign_speakers_to_transcription, h]
    decide
  · rw [h]
    decide

/-- A scan with enough fuel over a text in which the pattern does not
occur leaves the text unchanged. -/
theorem replaceAllAux_of_not_occurs (pat rep : List Char) :
    ∀ (fuel : ℕ) (s : List Char), s.length ≤ fuel → occursIn pat s = false →
      replaceAllAux pat rep fuel s = s := by
  intro fuel
  induction fuel with
  | zero =>
      intro s hl _
      cases s with
      | nil => rfl
      | cons c rest => simp at hl
  | succ fuel ih =>
      intro s hl ho
      cases s with
      | nil => rfl
      | cons c rest =>
          rw [occursIn, Bool.or_eq_false_iff] at ho
          rw [replaceAllAux, if_neg (fun hc => by rw [ho.1] at hc; exact Bool.noConfusion hc.1)]
          rw [ih rest (Nat.le_of_succ_le_succ (by simpa using hl)) ho.2]

/-- Python `str.replace` leaves a text unchanged when the pattern does
not occur in it. -/
theorem pyReplace_of_not_occurs (pat rep s : String)
    (h : occursIn pat.data s.data = false) : pyReplace pat rep s = s := by
  rw [pyReplace, replaceAllAux_of_not_occurs pat.data rep.data s.data.length s.data le_rfl h]

/-- Claim C6.  The rename step replaces every literal occurrence of
`"<old>:"` with `"<new>:"`: it turns `"A: hi\n\nB: there"` into
`"Alice: hi\n\nB: there"`, replaces repeated occurrences, leaves any text
in which the old label no longer matches unchanged, and in particular a
second application to the example's result changes nothing. -/
theorem c6_rename_transform :
    renameLabel "A" "Alice" "A: hi\n\nB: there" = "Alice: hi\n\nB: there"
    ∧ renameLabel "A" "Alice" "A: x\n\nA: y" = "Alice: x\n\nAlice: y"
    ∧ (∀ lbl newName t : String,
        occursIn (lbl ++ ":").data t.data = false →
        renameLabel lbl newName t = t)
    ∧ renameLabel "A" "Alice" "Alice: hi\n\nB: there" = "Alice: hi\n\nB: there" := by
  refine ⟨by decide, by decide, ?_, by decide⟩
  intro lbl newName t h
  rw [renameLabel, pyReplace_of_not_occurs _ _ _ h]

/-- Witness for claim C6: the label `"A:"` does not occur in `"Z"`, and
renaming leaves `"Z"` unchanged. -/
theorem c6_witness :
    occursIn ("A" ++ ":").data "Z".data = false
    ∧ renameLabel "A" "Alice" "Z" = "Z" :=
  ⟨by decide, c6_rename_transform.2.2.1 "A" "Alice" "Z" (by decide)⟩

/-- Claim C10.  The rename transform applies one `str.replace` per label
sequentially in sorted label order, so a map that renames `SPEAKER_00`
to `SPEAKER_01` while `SPEAKER_01` is itself renamed later chains the
two replacements: text originally labeled `SPEAKER_00` ends up under
`SPEAKER_01`'s new name, unlike a simultaneous substitution. -/
theorem c10_sequential_vs_simultaneous :
    apply_rename ["SPEAKER_00", "SPEAKER_01"]
        (fun l => if l = "SPEAKER_00" then "SPEAKER_01" else "Bob")
        "SPEAKER_00: hi\n\nSPEAKER_01: yo" = "Bob: hi\n\nBob: yo"
    ∧ simRename ["SPEAKER_00", "SPEAKER_01"]
        (fun l => if l = "SPEAKER_00" then "SPEAKER_01" else "Bob")
        "SPEAKER_00: hi\n\nSPEAKER_01: yo" = "SPEAKER_01: hi\n\nBob: yo"
    ∧ apply_rename ["SPEAKER_00", "SPEAKER_01"]
        (fun l => if l = "SPEAKER_00" then "SPEAKER_01" else "Bob")
        "SPEAKER_00: hi\n\nSPEAKER_01: yo"
      ≠ simRename ["SPEAKER_00", "SPEAKER_01"]
        (fun l => if l = "SPEAKER_00" then "SPEAKER_01" else "Bob")
        "SPEAKER_00: hi\n\nSPEAKER_01: yo" :=
  ⟨by decide, by decide, by decide⟩

/-- Claim C7.  A diarization failure is caught: the run still succeeds,
the warning is recorded, and the plain transcript from the preceding
transcription step is the final transcript; a transcription failure
aborts the whole run. -/
theorem c7_failure_handling :
    (∀ (txt : String) (segs : List TSeg) (e : String),
      run_transcription_flow (Except.ok (txt, segs)) (Except.error e) true
        = Except.ok
            ({ transcription_text := txt, transcription_segments := segs,
               diarization_results := [], final_transcript := txt,
               transcription_done := true },
             ["Error during diarization: " ++ e]))
    ∧ (∀ (e : String) (diarization : Except String (List DiarInterval)) (flag : Bool),
      run_transcription_flow (Except.error e) diarization flag = Except.error e) := by
  exact ⟨fun txt segs e => rfl, fun e d flag => rfl⟩

/-- On an all-successful run, the removal log extends exactly by the
paths of the non-original chunk files. -/
theorem transcribe_chunks_removed_of_ok (model : String → Except String WhisperResult)
    (filePath : String) :
    ∀ (chunks : List ChunkFile) (fullText : String) (accSegs : List TSeg)
      (removed : List String),
      (∀ c ∈ chunks, exceptOk (model c.path) = true) →
      (transcribe_chunks model filePath chunks fullText accSegs removed).2
        = removed ++ (chunks.filter (fun c => !(c.path == filePath))).map ChunkFile.path := by
  intro chunks
  induction chunks with
  | nil =>
      intro ft as rm _
      simp [transcribe_chunks]
  | cons c rest ih =>
      intro ft as rm hok
      rcases hm : model c.path with e | r
      · exact absurd (hok c (List.mem_cons_self c rest)) (by simp [exceptOk, hm])
      · rw [transcribe_chunks, hm]
        by_cases hp : c.path = filePath
        · rw [if_pos hp, ih _ _ _ (fun x hx => hok x (List.mem_cons_of_mem _ hx))]
          simp [List.filter_cons, hp]
        · rw [if_neg hp, ih _ _ _ (fun x hx => hok x (List.mem_cons_of_mem _ hx))]
          simp [List.filter_cons, hp]

/-- On any run — also one aborted by a model exception — the loop never
removes a file whose path is the original file path. -/
theorem transcribe_chunks_keeps_original (model : String → Except String WhisperResult)
    (filePath : String) :
    ∀ (chunks : List ChunkFile) (fullText : String) (accSegs : List TSeg)
      (removed : List String),
      filePath ∉ removed →
      filePath ∉ (transcribe_chunks model filePath chunks fullText accSegs removed).2 := by
  intro chunks
  induction chunks with
  | nil =>
      intro ft as rm h
      simpa [transcribe_chunks] using h
  | cons c rest ih =>
      intro ft as rm h
      rcases hm : model c.path with e | r
      · simpa [transcribe_chunks, hm] using h
      · rw [transcribe_chunks, hm]
        by_cases hp : c.path = filePath
        · rw [if_pos hp]
          exact ih _ _ _ h
        · rw [if_neg hp]
          refine ih _ _ _ ?_
          rw [List.mem_append]
          rintro (hc | hc)
          · exact h hc
          · rw [List.mem_singleton] at hc
            exact hp hc.symm

/-- Claim C8 (amended).  When every chunk transcription succeeds, each
temporary chunk file is deleted right after its chunk is transcribed (the
removal log is exactly the non-original chunk paths), and the original
input file is never removed on any execution path; but cleanup is not
guaranteed on error paths (see the counterexample). -/
theorem c8_chunk_cleanup (filePath : String) (chunks : List ChunkFile) :
    (∀ model : String → Except String WhisperResult,
      (∀ c ∈ chunks, exceptOk (model c.path) = true) →
      (transcribe_chunks model filePath chunks "" [] []).2
        = (chunks.filter (fun c => !(c.path == filePath))).map ChunkFile.path)
    ∧ (∀ model : String → Except String WhisperResult,
      filePath ∉ (transcribe_chunks model filePath chunks "" [] []).2) := by
  constructor
  · intro model hok
    simpa using transcribe_chunks_removed_of_ok model filePath chunks "" [] [] hok
  · intro model
    exact transcribe_chunks_keeps_original model filePath chunks "" [] [] (by simp)

/-- Witness for claim C8: with a model that succeeds on both chunks, the
two temporary files are removed and the original is untouched. -/
theorem c8_witness :
    (transcribe_chunks (fun _ => Except.ok ⟨"ok", []⟩) "orig"
        [⟨"tmp1", 0⟩, ⟨"tmp2", 350⟩] "" [] []).2 = ["tmp1", "tmp2"]
    ∧ "orig" ∉ (transcribe_chunks (fun _ => Except.ok ⟨"ok", []⟩) "orig"
        [⟨"tmp1", 0⟩, ⟨"tmp2", 350⟩] "" [] []).2 := by
  have h := c8_chunk_cleanup "orig" [⟨"tmp1", 0⟩, ⟨"tmp2", 350⟩]
  exact ⟨by rw [h.1 (fun _ => Except.ok ⟨"ok", []⟩) (by decide)]; decide,
    h.2 (fun _ => Except.ok ⟨"ok", []⟩)⟩

/-- Counterexample to claim C8 as stated: if the model raises on the
first chunk, the run exits on the error path with an empty removal log —
neither `tmp1` nor `tmp2` is deleted, so the temporary audio files leak
(there is no `try/finally` around the per-chunk `os.remove`). -/
theorem c8_counterexample :
    transcribe_chunks
        (fun p => if p = "tmp1" then Except.error "boom" else Except.ok ⟨"", []⟩)
        "orig" [⟨"tmp1", 0⟩, ⟨"tmp2", 350⟩] "" [] []
      = (Except.error "boom", [])
    ∧ "tmp1" ∉ (transcribe_chunks
        (fun p => if p = "tmp1" then Except.error "boom" else Except.ok ⟨"", []⟩)
        "orig" [⟨"tmp1", 0⟩, ⟨"tmp2", 350⟩] "" [] []).2
    ∧ "tmp2" ∉ (transcribe_chunks
        (fun p => if p = "tmp1" then Except.error "boom" else Except.ok ⟨"", []⟩)
        "orig" [⟨"tmp1", 0⟩, ⟨"tmp2", 350⟩] "" [] []).2 :=
  ⟨by decide, by decide, by decide⟩

/-- A positive duration yields at least one segment. -/
theorem num_segments_pos (total maxD : ℚ) (h0 : 0 < total) (hD : 0 < maxD) :
    0 < num_segments total maxD :=
  Int.ceil_pos.mpr (div_pos h0 hD)

/-- Casting the segment count through `toNat` loses nothing when it is
positive. -/
theorem toNat_cast_rat (total maxD : ℚ) (h : 0 < num_segments total maxD) :
    (((num_segments total maxD).toNat : ℕ) : ℚ) = ((num_segments total maxD : ℤ) : ℚ) := by
  exact_mod_cast congrArg (fun z : ℤ => (z : ℚ)) (Int.toNat_of_nonneg h.le)

/-- The even segment length is positive for positive inputs. -/
theorem segment_duration_pos (total maxD : ℚ) (h0 : 0 < total) (hD : 0 < maxD) :
    0 < segment_duration total maxD := by
  rw [segment_duration]
  apply div_pos h0
  exact_mod_cast num_segments_pos total maxD h0 hD

/-- Total duration decomposes as segment count times even length. -/
theorem total_eq_count_mul (total maxD : ℚ) (h0 : 0 < total) (hD : 0 < maxD) :
    total = (((num_segments total maxD).toNat : ℕ) : ℚ) * segment_duration total maxD := by
  rw [toNat_cast_rat total maxD (num_segments_pos total maxD h0 hD), segment_duration,
    mul_comm, div_mul_cancel₀]
  exact_mod_cast (num_segments_pos total maxD h0 hD).ne'

/-- Inside the loop range, the tail `min` never truncates: every chunk
has the even segment length. -/
theorem chunk_at_duration_eq (total maxD : ℚ) (h0 : 0 < total) (hD : 0 < maxD)
    (i : ℕ) (hi : i < (num_segments total maxD).toNat) :
    (chunk_at total maxD i).duration = segment_duration total maxD := by
  rw [chunk_at]
  apply min_eq_left
  have hsd := segment_duration_pos total maxD h0 hD
  have hi1 : (i : ℚ) + 1 ≤ (((num_segments total maxD).toNat : ℕ) : ℚ) := by
    exact_mod_cast Nat.succ_le_of_lt hi
  have htot := total_eq_count_mul total maxD h0 hD
  nlinarith [mul_nonneg (sub_nonneg.mpr hi1) hsd.le]

/-- Unfolding the split branch of the chunk planner. -/
theorem segment_audio_plan_split (total maxD : ℚ) (size maxSize : ℕ)
    (hex : ¬(total ≤ maxD ∧ size ≤ maxSize)) (hn : num_segments total maxD ≠ 0) :
    segment_audio_plan total size maxD maxSize
      = Except.ok ((List.range (num_segments total maxD).toNat).map (chunk_at total maxD)) := by
  rw [segment_audio_plan, if_neg hex, if_neg hn]

/-- Claim C3.  For every positive-duration input exceeding the duration
bound or the size bound, the plan has `ceil(duration / max_duration)`
chunks; chunk `i` starts at `i` times the even segment length and its
duration is `min(even_length, total - start)`, which always equals the
even length `total / num_segments`; the durations sum exactly to the
total duration; and the start offsets are strictly increasing and
contiguous. -/
theorem c3_even_split (total maxD : ℚ) (size maxSize : ℕ)
    (h0 : 0 < total) (hD : 0 < maxD) (hex : maxD < total ∨ maxSize < size) :
    ∃ plan : List AudioChunk,
      segment_audio_plan total size maxD maxSize = Except.ok plan
      ∧ (plan.length : ℤ) = Int.ceil (total / maxD)
      ∧ segment_duration total maxD = total / (plan.length : ℚ)
      ∧ (∀ i : ℕ, ∀ hi : i < plan.length,
          (plan.get ⟨i, hi⟩).start = (i : ℚ) * segment_duration total maxD
          ∧ (plan.get ⟨i, hi⟩).duration
              = min (segment_duration total maxD) (total - (plan.get ⟨i, hi⟩).start)
          ∧ (plan.get ⟨i, hi⟩).duration = segment_duration total maxD)
      ∧ (plan.map AudioChunk.duration).sum = total
      ∧ (∀ i : ℕ, ∀ hi : i + 1 < plan.length,
          (plan.get ⟨i, Nat.lt_of_succ_lt hi⟩).start < (plan.get ⟨i + 1, hi⟩).start
          ∧ (plan.get ⟨i + 1, hi⟩).start
              = (plan.get ⟨i, Nat.lt_of_succ_lt hi⟩).start
                + (plan.get ⟨i, Nat.lt_of_succ_lt hi⟩).duration) := by
  have hn := num_segments_pos total maxD h0 hD
  have hnot : ¬(total ≤ maxD ∧ size ≤ maxSize) := by
    rcases hex with h | h
    · exact fun hc => absurd hc.1 (not_le.mpr h)
    · exact fun hc => absurd hc.2 (not_le.mpr h)
  have hlen : ((List.range (num_segments total maxD).toNat).map (chunk_at total maxD)).length
      = (num_segments total maxD).toNat := by
    rw [List.length_map, List.length_range]
  have hget : ∀ (i : ℕ)
      (hi : i < ((List.range (num_segments total maxD).toNat).map (chunk_at total maxD)).length),
      ((List.range (num_segments total maxD).toNat).map (chunk_at total maxD)).get ⟨i, hi⟩
        = chunk_at total maxD i := by
    intro i hi
    rw [List.get_eq_getElem, List.getElem_map, List.getElem_range]
  have hsd := segment_duration_pos total maxD h0 hD
  refine ⟨_, segment_audio_plan_split total maxD size maxSize hnot hn.ne', ?_, ?_, ?_, ?_, ?_⟩
  · rw [hlen, Int.toNat_of_nonneg hn.le]
    rfl
  · rw [hlen, toNat_cast_rat total maxD hn, segment_duration]
  · intro i hi
    rw [hget i hi]
    have him : i < (num_segments total maxD).toNat := by rw [hlen] at hi; exact hi
    refine ⟨rfl, rfl, chunk_at_duration_eq total maxD h0 hD i him⟩
  · rw [List.map_map]
    rw [show List.map (AudioChunk.duration ∘ chunk_at total maxD)
          (List.range (num_segments total maxD).toNat)
        = List.map (fun _ => segment_duration total maxD)
          (List.range (num_segments total maxD).toNat) from
      List.map_congr_left (fun i hi =>
        chunk_at_duration_eq total maxD h0 hD i (List.mem_range.mp hi))]
    rw [List.map_const', List.length_range, List.sum_replicate, nsmul_eq_mul]
    exact (total_eq_count_mul total maxD h0 hD).symm
  · intro i hi
    rw [hget i (Nat.lt_of_succ_lt hi), hget (i + 1) hi]
    have him : i < (num_segments total maxD).toNat := by
      rw [hlen] at hi; exact Nat.lt_of_succ_lt hi
    constructor
    · show (i : ℚ) * segment_duration total maxD
        < ((i + 1 : ℕ) : ℚ) * segment_duration total maxD
      have : (i : ℚ) < ((i + 1 : ℕ) : ℚ) := by push_cast; linarith
      exact mul_lt_mul_of_pos_right this hsd
    · show ((i + 1 : ℕ) : ℚ) * segment_duration total maxD
        = (i : ℚ) * segment_duration total maxD + (chunk_at total maxD i).duration
      rw [chunk_at_duration_eq total maxD h0 hD i him]
      push_cast
      ring

/-- Witness for claim C3 at a 700-second, zero-byte input with the
default bounds: the duration bound is exceeded. -/
theorem c3_witness :
    ∃ plan : List AudioChunk,
      segment_audio_plan 700 0 600 104857600 = Except.ok plan
      ∧ (plan.length : ℤ) = Int.ceil ((700 : ℚ) / 600)
      ∧ segment_duration 700 600 = 700 / (plan.length : ℚ)
      ∧ (∀ i : ℕ, ∀ hi : i < plan.length,
          (plan.get ⟨i, hi⟩).start = (i : ℚ) * segment_duration 700 600
          ∧ (plan.get ⟨i, hi⟩).duration
              = min (segment_duration 700 600) (700 - (plan.get ⟨i, hi⟩).start)
          ∧ (plan.get ⟨i, hi⟩).duration = segment_duration 700 600)
      ∧ (plan.map AudioChunk.duration).sum = 700
      ∧ (∀ i : ℕ, ∀ hi : i + 1 < plan.length,
          (plan.get ⟨i, Nat.lt_of_succ_lt hi⟩).start < (plan.get ⟨i + 1, hi⟩).start
          ∧ (plan.get ⟨i + 1, hi⟩).start
              = (plan.get ⟨i, Nat.lt_of_succ_lt hi⟩).start
                + (plan.get ⟨i, Nat.lt_of_succ_lt hi⟩).duration) :=
  c3_even_split 700 600 0 104857600 (by decide) (by decide) (Or.inl (by decide))

/-- Claim C4.  When the duration and the file size are both within
bounds (inclusively), the plan is a single whole-file chunk at offset 0
whose duration is the input duration, and that chunk is the original
file itself. -/
theorem c4_whole_file_single_chunk (total maxD : ℚ) (size maxSize : ℕ)
    (h1 : total ≤ maxD) (h2 : size ≤ maxSize) :
    segment_audio_plan total size maxD maxSize = Except.ok [⟨true, 0, total⟩] := by
  rw [segment_audio_plan, if_pos ⟨h1, h2⟩]

/-- Witness for claim C4, at exact equality on both bounds. -/
theorem c4_witness :
    segment_audio_plan 600 104857600 600 104857600 = Except.ok [⟨true, 0, 600⟩] :=
  c4_whole_file_single_chunk 600 600 104857600 104857600 (by decide) (by decide)

/-- A positive duration within the duration bound gives exactly one
segment. -/
theorem num_segments_eq_one (total maxD : ℚ) (h0 : 0 < total) (h1 : total ≤ maxD) :
    num_segments total maxD = 1 := by
  have hD : 0 < maxD := lt_of_lt_of_le h0 h1
  rw [num_segments, Int.ceil_eq_iff]
  constructor
  · push_cast
    have := div_pos h0 hD
    linarith
  · push_cast
    exact (div_le_one hD).mpr h1

/-- The oversize-but-short path: one re-encoded chunk covering the whole
duration. -/
theorem plan_oversize_single (total maxD : ℚ) (size maxSize : ℕ)
    (h0 : 0 < total) (h1 : total ≤ maxD) (h2 : maxSize < size) :
    segment_audio_plan total size maxD maxSize = Except.ok [⟨false, 0, total⟩] := by
  have hone := num_segments_eq_one total maxD h0 h1
  have hsd : segment_duration total maxD = total := by
    rw [segment_duration, hone]
    norm_num
  rw [segment_audio_plan, if_neg (fun hc => absurd hc.2 (not_le.mpr h2)),
    if_neg (by rw [hone]; decide), hone]
  rw [show ((1 : ℤ).toNat) = 1 from rfl, show List.range 1 = [0] from rfl,
    List.map_cons, List.map_nil, chunk_at, hsd]
  norm_num

/-- The (start, duration) shape of the plan for a positive duration
within the duration bound, whatever the file size. -/
theorem plan_shape_small (total maxD : ℚ) (s maxSize : ℕ)
    (h0 : 0 < total) (h1 : total ≤ maxD) :
    (segment_audio_plan total s maxD maxSize).map
        (List.map (fun c => (c.start, c.duration)))
      = Except.ok [((0 : ℚ), total)] := by
  by_cases hs : s ≤ maxSize
  · rw [segment_audio_plan, if_pos ⟨h1, hs⟩]
    rfl
  · rw [plan_oversize_single total maxD s maxSize h0 h1 (not_le.mp hs)]
    rfl

/-- Claim C9.  For a positive duration within the duration bound but a
file size over the size bound, the plan is still a single chunk covering
the whole duration at offset 0 (only now a re-encoded temporary file);
and the file size never changes any chunk's start or duration — it only
selects which path materializes the chunks. -/
theorem c9_size_only_selects_path (total maxD : ℚ) (size maxSize : ℕ)
    (h0 : 0 < total) (h1 : total ≤ maxD) (h2 : maxSize < size) :
    segment_audio_plan total size maxD maxSize = Except.ok [⟨false, 0, total⟩]
    ∧ ∀ s1 s2 : ℕ,
        (segment_audio_plan total s1 maxD maxSize).map
            (List.map (fun c => (c.start, c.duration)))
          = (segment_audio_plan total s2 maxD maxSize).map
            (List.map (fun c => (c.start, c.duration))) := by
  refine ⟨plan_oversize_single total maxD size maxSize h0 h1 h2, fun s1 s2 => ?_⟩
  rw [plan_shape_small total maxD s1 maxSize h0 h1, plan_shape_small total maxD s2 maxSize h0 h1]

/-- Witness for claim C9: a 500-second file of 200 MiB with the default
bounds. -/
theorem c9_witness :
    segment_audio_plan 500 (200 * 1024 * 1024) 600 104857600 = Except.ok [⟨false, 0, 500⟩]
    ∧ ∀ s1 s2 : ℕ,
        (segment_audio_plan 500 s1 600 104857600).map
            (List.map (fun c => (c.start, c.duration)))
          = (segment_audio_plan 500 s2 600 104857600).map
            (List.map (fun c => (c.start, c.duration))) :=
  c9_size_only_selects_path 500 600 (200 * 1024 * 1024) 104857600
    (by decide) (by decide) (by decide)

/-- Claim C5 (amended).  A zero-duration input is not rejected with any
`InvalidInput` error: when the file size is within the size bound the
planner returns a single whole-file chunk of duration 0, and when the
file size exceeds the bound the planner fails — but with an accidental
`ZeroDivisionError` from `total_duration / num_segments`, not a
validation error. -/
theorem c5_zero_duration_behavior (size : ℕ) (maxD : ℚ) (maxSize : ℕ) (hD : 0 ≤ maxD) :
    segment_audio_plan 0 size maxD maxSize
      = if size ≤ maxSize then Except.ok [⟨true, 0, 0⟩]
        else Except.error "ZeroDivisionError" := by
  have hn : num_segments 0 maxD = 0 := by
    rw [num_segments, zero_div]
    exact Int.ceil_zero
  by_cases hs : size ≤ maxSize
  · rw [if_pos hs, segment_audio_plan, if_pos ⟨hD, hs⟩]
  · rw [if_neg hs, segment_audio_plan, if_neg (fun hc => hs hc.2), if_pos hn]

/-- Counterexample to claim C5 as stated: at duration 0 with a small
file the planner returns a chunk plan (the whole-file chunk), rather
than failing with any error. -/
theorem c5_counterexample :
    segment_audio_plan 0 0 600 104857600 = Except.ok [⟨true, 0, 0⟩] := by
  rw [segment_audio_plan, if_pos]
  exact ⟨by decide, by decide⟩

/-- Witness for claim C5 at a 5-byte zero-duration file. -/
theorem c5_witness :
    ((0 : ℚ) ≤ 600)
    ∧ segment_audio_plan 0 5 600 104857600
        = (if 5 ≤ 104857600 then Except.ok [⟨true, 0, 0⟩]
           else Except.error "ZeroDivisionError") :=
  ⟨by decide, c5_zero_duration_behavior 5 600 104857600 (by decide)⟩

end AudioApp
